import Mathlib

/-
Shallow embedding of the employee-records service (an Express + Mongoose
application with two entry points: `app.js`, which stores the attached image
inline in the record as a binary buffer, and `server.js`, which stores the
image in an external uploads directory and keeps only a locator string in
the record).  Machine-level concerns (HTTP transport, the MongoDB wire
protocol) are out of scope; routes become pure functions over an explicit
store state, and fallible routes return `Except`.
-/

/-- Calendar date, the embedding of a JavaScript `Date` restricted to its
year-month-day components (the application only ever stores date-of-birth
values parsed from date-only strings). -/
structure SimpleDate where
  year : Nat
  month : Nat
  day : Nat
deriving DecidableEq, Repr

/-- Gregorian leap-year rule, as used by the JavaScript `Date` parser when
it validates day-of-month components. -/
def isLeapYear (y : Nat) : Bool :=
  (y % 4 == 0 && y % 100 != 0) || (y % 400 == 0)

/-- Number of days in a month, used to validate the day component of a
date-only string (February 30 is invalid, for example). -/
def daysInMonth (y m : Nat) : Nat :=
  if m == 2 then (if isLeapYear y then 29 else 28)
  else if m == 4 || m == 6 || m == 9 || m == 11 then 30
  else 31

/-- Value of a decimal digit character, `none` when the character is not a
digit. -/
def charDigit? (c : Char) : Option Nat :=
  if c.isDigit then some (c.toNat - 48) else none

/-- Left fold of decimal digits into a number; fails on any non-digit. -/
def parseNatFrom (acc : Nat) : List Char → Option Nat
  | [] => some acc
  | c :: cs =>
    match charDigit? c with
    | some d => parseNatFrom (acc * 10 + d) cs
    | none => none

/-- Parse a non-empty all-digit character list as a natural number. -/
def parseNatChars : List Char → Option Nat
  | [] => none
  | c :: cs => parseNatFrom 0 (c :: cs)

/-- Split a character list at dash characters (accumulator holds the
current segment reversed). -/
def splitDashAux : List Char → List Char → List (List Char)
  | [], acc => [acc.reverse]
  | c :: cs, acc =>
    if c == '-' then acc.reverse :: splitDashAux cs []
    else splitDashAux cs (c :: acc)

/-- Segments of a character list between dashes. -/
def splitDashes (cs : List Char) : List (List Char) :=
  splitDashAux cs []

/-- Embedding of `new Date(dob)` followed by the `isNaN` validity check, for
date-only strings in the ISO `YYYY-MM-DD` layout (the representation the
clients of this service submit).  The ECMAScript date-time string format
used by the runtime rejects out-of-range components: month 13, day 32, or a
day that overflows the month (February 30) all yield an invalid date, which
this embedding renders as `none`. -/
def parseDob (s : String) : Option SimpleDate :=
  match splitDashes s.data with
  | [ys, ms, ds] =>
    if ys.length == 4 && ms.length == 2 && ds.length == 2 then
      match parseNatChars ys, parseNatChars ms, parseNatChars ds with
      | some y, some m, some d =>
        if 1 ≤ m && m ≤ 12 && 1 ≤ d && d ≤ daysInMonth y m then
          some ⟨y, m, d⟩
        else none
      | _, _, _ => none
    else none
  | _ => none

/-- Whether a pattern character list is an initial segment of another. -/
def listStartsWith : List Char → List Char → Bool
  | [], _ => true
  | _ :: _, [] => false
  | p :: ps, c :: cs => p == c && listStartsWith ps cs

/-- Whether the second character list occurs contiguously in the first. -/
def containsSub (sub : List Char) : List Char → Bool
  | [] => listStartsWith sub []
  | c :: t => listStartsWith sub (c :: t) || containsSub sub t

/-- Remove an expected leading segment, `none` when it does not match. -/
def dropLead : List Char → List Char → Option (List Char)
  | [], cs => some cs
  | _ :: _, [] => none
  | p :: ps, c :: cs => if p == c then dropLead ps cs else none

/-- Embedding of `mimetype.startsWith("image/")`, the check the multer
`fileFilter` of the external variant performs on the declared MIME type. -/
def mimeIsImage (m : String) : Bool :=
  listStartsWith ("image/").data m.data

/-- The base64 alphabet in order, as used by `Buffer.toString("base64")`. -/
def b64Chars : List Char :=
  ("ABCDEFGHIJKLMNOPQRSTUVWXYZabcdefghijklmnopqrstuvwxyz0123456789+/").data

/-- Character encoding a six-bit group. -/
def sextetChar (n : Nat) : Char :=
  b64Chars.getD n 'A'

/-- Index of a character in the base64 alphabet. -/
def charSextet (c : Char) : Nat :=
  b64Chars.indexOf c

/-- The base64 padding character. -/
def padChar : Char := '='

/-- Base64 encoding of a byte list (three bytes become four characters,
with `=` padding on a short final group), the embedding of
`Buffer.toString("base64")`. -/
def b64EncodeList : List Nat → List Char
  | b1 :: b2 :: b3 :: rest =>
    sextetChar (b1 / 4) :: sextetChar ((b1 % 4) * 16 + b2 / 16) ::
      sextetChar ((b2 % 16) * 4 + b3 / 64) :: sextetChar (b3 % 64) ::
        b64EncodeList rest
  | [b1, b2] =>
    [sextetChar (b1 / 4), sextetChar ((b1 % 4) * 16 + b2 / 16),
      sextetChar ((b2 % 16) * 4), padChar]
  | [b1] =>
    [sextetChar (b1 / 4), sextetChar ((b1 % 4) * 16), padChar, padChar]
  | [] => []

/-- Base64 decoding of a character list, inverse of `b64EncodeList` on
well-formed input. -/
def b64DecodeList : List Char → List Nat
  | c1 :: c2 :: c3 :: c4 :: rest =>
    let v1 := charSextet c1
    let v2 := charSextet c2
    let v3 := charSextet c3
    let v4 := charSextet c4
    if c3 == padChar then [v1 * 4 + v2 / 16]
    else if c4 == padChar then [v1 * 4 + v2 / 16, (v2 % 16) * 16 + v3 / 4]
    else (v1 * 4 + v2 / 16) :: ((v2 % 16) * 16 + v3 / 4) ::
      ((v3 % 4) * 64 + v4) :: b64DecodeList rest
  | _ => []

/-- Base64 encoding packaged as a string. -/
def base64Encode (bytes : List Nat) : String :=
  String.mk (b64EncodeList bytes)

/-- An uploaded file as multer hands it to a route: original client-side
file name, declared MIME type, and the raw bytes. -/
structure FileUpload where
  originalname : String
  mimetype : String
  buffer : List Nat
deriving DecidableEq, Repr

/-- Error taxonomy of the service, as surfaced by the route handlers. -/
inductive ApiErr where
  | validation (msg : String)
  | attachmentType (msg : String)
  | notFound (msg : String)
  | storage (msg : String)
deriving DecidableEq, Repr

/-- Result of the JavaScript `Number(...)` coercion applied to a query
parameter: either not a number, or an integer value. -/
inductive JSNum where
  | nan
  | num (n : Int)
deriving DecidableEq, Repr

/-- JavaScript truthiness of a coerced number: `0` and `NaN` are falsy. -/
def JSNum.truthy : JSNum → Bool
  | .nan => false
  | .num n => n != 0

/-- JavaScript falsiness of an optional string body field: absent fields
and the empty string are falsy, every other string is truthy. -/
def isBlank : Option String → Bool
  | none => true
  | some s => s == ""

namespace Inline

/-- Employee record of the inline variant (`app.js`): the image is stored
inside the record as a byte buffer together with its MIME content type. -/
structure Employee where
  id : Nat
  title : String
  image : List Nat
  name : String
  designation : String
  dob : SimpleDate
  address : String
  contentType : String
deriving DecidableEq, Repr

/-- Persistence backend state of the inline variant: the stored records in
insertion order, plus the next identifier the backend will assign. -/
structure StoreState where
  recs : List Employee
  nextId : Nat
deriving DecidableEq, Repr

/-- Body and file of a create request as the route sees them: each text
field may be absent, the image file may be absent. -/
structure CreateReq where
  title : Option String
  name : Option String
  designation : Option String
  dob : Option String
  address : Option String
  file : Option FileUpload
deriving DecidableEq, Repr

/-- Embedding of `POST /api/employees` in `app.js`: requires the image
file, requires every text field to be truthy, requires `dob` to parse to a
valid date, then saves a record whose content type defaults to
`application/octet-stream` when the upload declared none.  An error result
means the route answered with an error and the store is unchanged. -/
def createEmployee (s : StoreState) (req : CreateReq) :
    Except ApiErr (StoreState × Employee) :=
  match req.file with
  | none => .error (.validation ("Image file is required."))
  | some f =>
    if isBlank req.title || isBlank req.name || isBlank req.designation
        || isBlank req.dob || isBlank req.address then
      .error (.validation ("All fields are required."))
    else
      match parseDob (req.dob.getD ("")) with
      | none => .error (.validation ("Invalid date format."))
      | some d =>
        let e : Employee :=
          { id := s.nextId
            title := req.title.getD ("")
            image := f.buffer
            name := req.name.getD ("")
            designation := req.designation.getD ("")
            dob := d
            address := req.address.getD ("")
            contentType :=
              if f.mimetype == "" then ("application/octet-stream")
              else f.mimetype }
        .ok ({ recs := s.recs ++ [e], nextId := s.nextId + 1 }, e)

/-- Embedding of `GET /api/employees` in `app.js`: the query parameter is
coerced with `Number(...)`; when the result is truthy the Mongo cursor is
capped via `limit(n)` (which uses the magnitude of a negative argument),
otherwise the whole collection is returned.  Records are returned exactly
as stored, with raw image bytes. -/
def listEmployees (s : StoreState) (limit : JSNum) : List Employee :=
  match limit with
  | .num n => if n != 0 then s.recs.take n.natAbs else s.recs
  | .nan => s.recs

/-- Lookup a record by identifier (`Employee.findById`). -/
def findEmployee (s : StoreState) (id : Nat) : Option Employee :=
  s.recs.find? (fun r => r.id == id)

/-- A record as `GET /api/employees/:id` returns it: every stored field,
with the image replaced by a base64 `data:` URI for direct embedding. -/
structure RenderedEmployee where
  id : Nat
  title : String
  image : String
  name : String
  designation : String
  dob : SimpleDate
  address : String
  contentType : String
deriving DecidableEq, Repr

/-- Rendering step of `GET /api/employees/:id`: spread of the stored
record with `image` replaced by a `data:` URI built from the stored content
type and the base64 encoding of the stored bytes. -/
def renderEmployee (e : Employee) : RenderedEmployee :=
  { id := e.id
    title := e.title
    image := ("data:") ++ e.contentType ++ (";base64,") ++ base64Encode e.image
    name := e.name
    designation := e.designation
    dob := e.dob
    address := e.address
    contentType := e.contentType }

/-- Embedding of `GET /api/employees/:id` in `app.js`. -/
def getEmployee (s : StoreState) (id : Nat) : Except ApiErr RenderedEmployee :=
  match findEmployee s id with
  | none => .error (.notFound ("Employee not found"))
  | some e => .ok (renderEmployee e)

/-- Body and file of an update request: `req.body` holds exactly the
fields the client supplied, and an uploaded file is optional. -/
structure UpdateReq where
  title : Option String
  name : Option String
  designation : Option String
  dob : Option String
  address : Option String
  file : Option FileUpload
deriving DecidableEq, Repr

/-- Merge step of `findByIdAndUpdate`: the supplied fields overwrite the
stored ones, every omitted field keeps its stored value; a supplied file
replaces both the image bytes and the content type. -/
def applyUpdate (u : UpdateReq) (d? : Option SimpleDate) (e : Employee) :
    Employee :=
  { id := e.id
    title := u.title.getD e.title
    image := match u.file with | some f => f.buffer | none => e.image
    name := u.name.getD e.name
    designation := u.designation.getD e.designation
    dob := d?.getD e.dob
    address := u.address.getD e.address
    contentType :=
      match u.file with | some f => f.mimetype | none => e.contentType }

/-- Cast step of `findByIdAndUpdate` for a supplied `dob` string: an
omitted field stays omitted, a supplied value must parse to a valid date,
and an uncastable value raises (surfaced by the route as a server error
with the given message, leaving the store unchanged). -/
def castDob (msg : String) : Option String → Except ApiErr (Option SimpleDate)
  | none => .ok none
  | some ds =>
    match parseDob ds with
    | none => .error (.storage msg)
    | some d => .ok (some d)

/-- Embedding of `PUT /api/employees/:id` in `app.js`: a supplied `dob`
string is cast to a date first, then the identified record is merged and
rewritten in place. -/
def updateEmployee (s : StoreState) (id : Nat) (u : UpdateReq) :
    Except ApiErr (StoreState × Employee) :=
  match castDob ("Error updating Employee") u.dob with
  | .error err => .error err
  | .ok d? =>
    match findEmployee s id with
    | none => .error (.notFound ("Employee not found"))
    | some e =>
      let e2 := applyUpdate u d? e
      .ok ({ s with recs := s.recs.map (fun r => if r.id == id then e2 else r) },
        e2)

/-- Embedding of `DELETE /api/employees/:id` in `app.js`
(`findByIdAndDelete`): removes the identified record or fails with a
not-found error. -/
def deleteEmployee (s : StoreState) (id : Nat) : Except ApiErr StoreState :=
  match findEmployee s id with
  | none => .error (.notFound ("Employee not found"))
  | some _ => .ok { s with recs := s.recs.eraseP (fun r => r.id == id) }

end Inline

namespace External

/-- Employee record of the external variant (`server.js`): the image field
is optional and holds only a locator string under the `/uploads` path
served statically. -/
structure Employee where
  id : Nat
  title : String
  image : Option String
  name : String
  designation : String
  dob : SimpleDate
  address : String
deriving DecidableEq, Repr

/-- Content sink of the external variant: the `uploads` directory, a list
of stored file names with their bytes in write order. -/
structure Sink where
  files : List (String × List Nat)
deriving DecidableEq, Repr

/-- Persistence backend state of the external variant. -/
structure StoreState where
  recs : List Employee
  nextId : Nat
deriving DecidableEq, Repr

/-- Unique file name chosen by the multer disk storage: the current
timestamp joined to the original client file name. -/
def mkFileName (now : Nat) (originalname : String) : String :=
  toString now ++ ("-") ++ originalname

/-- Embedding of the multer middleware of `server.js` (disk storage plus
the `fileFilter`): without a file the request passes through untouched;
with a file whose declared MIME type is not an image category the request
is rejected before any bytes reach the sink; otherwise the bytes are
written under a fresh time-derived name which is returned. -/
def uploadSingle (sink : Sink) (now : Nat) (file : Option FileUpload) :
    Except ApiErr (Sink × Option String) :=
  match file with
  | none => .ok (sink, none)
  | some f =>
    if mimeIsImage f.mimetype then
      let fname := mkFileName now f.originalname
      .ok ({ files := sink.files ++ [(fname, f.buffer)] }, some fname)
    else
      .error (.attachmentType ("Only image files are allowed"))

/-- Body and file of a create request of the external variant. -/
structure CreateReq where
  title : Option String
  name : Option String
  designation : Option String
  dob : Option String
  address : Option String
  file : Option FileUpload
deriving DecidableEq, Repr

/-- Mongoose `required` validator for a string path: present and
non-empty. -/
def requiredStrOk : Option String → Bool
  | none => false
  | some s => s != ""

/-- Embedding of `POST /api/employees` in `server.js`: the upload
middleware runs first; the route itself performs no explicit checks and
relies on the mongoose schema at `save` time, which casts `dob` to a date
(an absent or uncastable value raises a validation error) and requires the
text paths to be non-empty; the stored image field is the `/uploads`
locator of the written file, or absent when no file was uploaded.  An
error result means no record was persisted. -/
def createEmployee (sink : Sink) (s : StoreState) (now : Nat)
    (req : CreateReq) : Except ApiErr (Sink × StoreState × Employee) :=
  match uploadSingle sink now req.file with
  | .error err => .error err
  | .ok (sink2, fname?) =>
  match req.dob with
  | none => .error (.validation ("Employee validation failed: dob"))
  | some ds =>
    match parseDob ds with
    | none => .error (.validation ("Employee validation failed: dob"))
    | some d =>
      if requiredStrOk req.title && requiredStrOk req.name
          && requiredStrOk req.designation && requiredStrOk req.address then
        let e : Employee :=
          { id := s.nextId
            title := req.title.getD ("")
            image := fname?.map (fun fn => ("/uploads/") ++ fn)
            name := req.name.getD ("")
            designation := req.designation.getD ("")
            dob := d
            address := req.address.getD ("") }
        .ok (sink2, ⟨{ recs := s.recs ++ [e], nextId := s.nextId + 1 }, e⟩)
      else .error (.validation ("Employee validation failed"))

/-- Pagination metadata and page content returned by the listing route. -/
structure PagedResult where
  totalEmployees : Nat
  totalPages : Nat
  currentPage : Nat
  employees : List Employee
deriving DecidableEq, Repr

/-- Embedding of `GET /api/employees` in `server.js`: `page` defaults to 1
and `limit` to 10; the backend skips `(page - 1) * limit` records, caps
the result at `limit`, and the response carries the full count and
`Math.ceil(totalEmployees / limit)` as the page count.  The route never
fails on an out-of-range page. -/
def listPaged (s : StoreState) (page limit : Nat) : PagedResult :=
  { totalEmployees := s.recs.length
    totalPages := (s.recs.length + limit - 1) / limit
    currentPage := page
    employees := (s.recs.drop ((page - 1) * limit)).take limit }

/-- Lookup a record by identifier (`Employee.findById`). -/
def findEmployee (s : StoreState) (id : Nat) : Option Employee :=
  s.recs.find? (fun r => r.id == id)

/-- Embedding of `GET /api/employees/:id` in `server.js`: the record is
returned exactly as stored (the locator is not rewritten). -/
def getEmployee (s : StoreState) (id : Nat) : Except ApiErr Employee :=
  match findEmployee s id with
  | none => .error (.notFound ("Employee not found"))
  | some e => .ok e

/-- Body and file of an update request of the external variant: the route
destructures the body, so omitted fields arrive as `undefined` and are
stripped from the update by mongoose, and the image locator is spread into
the update only when a file was uploaded. -/
structure UpdateReq where
  title : Option String
  name : Option String
  designation : Option String
  dob : Option String
  address : Option String
  file : Option FileUpload
deriving DecidableEq, Repr

/-- Merge step of `findByIdAndUpdate` in `server.js`: supplied fields
overwrite, omitted fields (stripped `undefined` entries) keep their stored
values, and the image locator changes only when a file was uploaded. -/
def applyUpdate (u : UpdateReq) (fname? : Option String)
    (d? : Option SimpleDate) (e : Employee) : Employee :=
  { id := e.id
    title := u.title.getD e.title
    image :=
      match fname? with
      | some fn => some (("/uploads/") ++ fn)
      | none => e.image
    name := u.name.getD e.name
    designation := u.designation.getD e.designation
    dob := d?.getD e.dob
    address := u.address.getD e.address }

/-- Embedding of `PUT /api/employees/:id` in `server.js`: the upload
middleware runs first (so a non-image file rejects the request), a
supplied `dob` must cast to a date, and then the identified record is
merged in place. -/
def updateEmployee (sink : Sink) (s : StoreState) (now : Nat) (id : Nat)
    (u : UpdateReq) : Except ApiErr (Sink × StoreState × Employee) :=
  match uploadSingle sink now u.file with
  | .error err => .error err
  | .ok (sink2, fname?) =>
    match Inline.castDob ("Error updating employee") u.dob with
    | .error err => .error err
    | .ok d? =>
      match findEmployee s id with
      | none => .error (.notFound ("Employee not found"))
      | some e =>
        let e2 := applyUpdate u fname? d? e
        .ok (sink2,
          ⟨{ s with recs := s.recs.map (fun r => if r.id == id then e2 else r) },
            e2⟩)

/-- Embedding of `DELETE /api/employees/:id` in `server.js`
(`findByIdAndDelete`). -/
def deleteEmployee (s : StoreState) (id : Nat) : Except ApiErr StoreState :=
  match findEmployee s id with
  | none => .error (.notFound ("Employee not found"))
  | some _ => .ok { s with recs := s.recs.eraseP (fun r => r.id == id) }

/-- Bytes stored in the sink under a file name. -/
def lookupFile (sink : Sink) (name : String) : Option (List Nat) :=
  (sink.files.find? (fun p => p.1 == name)).map (fun p => p.2)

/-- Resolution of a stored locator through the static `/uploads` route: a
locator is resolvable when stripping the `/uploads/` route gives a file
name present in the sink, and resolution returns that file's bytes. -/
def resolveLocator (sink : Sink) (loc : String) : Option (List Nat) :=
  match dropLead ("/uploads/").data loc.data with
  | none => none
  | some rest => lookupFile sink (String.mk rest)

end External

/-
Concrete fixtures used to exercise the embedding on closed inputs.
-/

/-- A concrete valid date of birth. -/
def demoDate : SimpleDate := ⟨1990, 1, 1⟩

/-- A concrete image upload. -/
def demoFile : FileUpload := ⟨"a.png", "image/png", [1, 2, 3]⟩

/-- A concrete non-image upload. -/
def demoTextFile : FileUpload := ⟨"a.txt", "text/plain", [104, 105]⟩

/-- A concrete stored record of the inline variant. -/
def demoInlineEmp : Inline.Employee :=
  ⟨0, "Mr", [1, 2, 3], "Ada", "Engineer", demoDate, "1 Main St", "image/png"⟩

/-- A one-record store of the inline variant. -/
def demoInlineStore : Inline.StoreState := ⟨[demoInlineEmp], 1⟩

/-- An empty store of the inline variant. -/
def emptyInlineStore : Inline.StoreState := ⟨[], 0⟩

/-- A concrete stored record of the external variant. -/
def demoExtEmp : External.Employee :=
  ⟨0, "Mr", some ("/uploads/7-a.png"), "Ada", "Engineer", demoDate, "1 Main St"⟩

/-- A one-record store of the external variant. -/
def demoExtStore : External.StoreState := ⟨[demoExtEmp], 1⟩

/-- An empty store of the external variant. -/
def emptyExtStore : External.StoreState := ⟨[], 0⟩

/-- An empty content sink. -/
def emptySink : External.Sink := ⟨[]⟩

/-- An external-variant record carrying only an identifier of interest. -/
def extEmp (i : Nat) : External.Employee :=
  ⟨i, "Mr", none, "Ada", "Engineer", demoDate, "1 Main St"⟩

/-- A five-record store of the external variant, for pagination checks. -/
def demoExtStore5 : External.StoreState :=
  ⟨[extEmp 0, extEmp 1, extEmp 2, extEmp 3, extEmp 4], 5⟩

/-- A concrete update request supplying only the address field. -/
def demoAddrOnlyInline : Inline.UpdateReq :=
  ⟨none, none, none, none, some ("2 Side St"), none⟩

/-- The demo inline record after an address-only update. -/
def demoInlineUpdated : Inline.Employee :=
  ⟨0, "Mr", [1, 2, 3], "Ada", "Engineer", demoDate, "2 Side St", "image/png"⟩

/-- A create request with the title field absent and everything else
valid. -/
def demoNoTitleReq : Inline.CreateReq :=
  ⟨none, some ("Ada"), some ("Engineer"), some ("1990-01-01"),
    some ("1 Main St"), some demoFile⟩

/-- A concrete update request supplying only the address field. -/
def demoAddrOnlyExt : External.UpdateReq :=
  ⟨none, none, none, none, some ("2 Side St"), none⟩
/-- Decoding the alphabet character of a six-bit value recovers the value. -/
theorem charSextet_sextetChar : ∀ v, v < 64 → charSextet (sextetChar v) = v := by
  decide

/-- No alphabet character of a six-bit value is the padding character. -/
theorem sextetChar_ne_pad : ∀ v, v < 64 → (sextetChar v == padChar) = false := by
  decide

/-- Base64 decoding inverts base64 encoding on byte lists. -/
theorem b64_roundtrip : ∀ (bs : List Nat), (∀ b ∈ bs, b < 256) →
    b64DecodeList (b64EncodeList bs) = bs
  | [], _ => rfl
  | [b1], h => by
    have hb1 : b1 < 256 := h b1 (by simp)
    have h1 : b1 / 4 < 64 := by omega
    have h2 : (b1 % 4) * 16 < 64 := by omega
    simp only [b64EncodeList, b64DecodeList]
    have hpad : (padChar == padChar) = true := by decide
    rw [hpad]
    simp only [if_true]
    rw [charSextet_sextetChar _ h1, charSextet_sextetChar _ h2]
    have : b1 / 4 * 4 + (b1 % 4) * 16 / 16 = b1 := by omega
    rw [this]
  | [b1, b2], h => by
    have hb1 : b1 < 256 := h b1 (by simp)
    have hb2 : b2 < 256 := h b2 (by simp)
    have h1 : b1 / 4 < 64 := by omega
    have h2 : (b1 % 4) * 16 + b2 / 16 < 64 := by omega
    have h3 : (b2 % 16) * 4 < 64 := by omega
    simp only [b64EncodeList, b64DecodeList]
    rw [sextetChar_ne_pad _ h3]
    simp only [Bool.false_eq_true, if_false]
    have hpad : (padChar == padChar) = true := by decide
    rw [hpad]
    simp only [if_true]
    rw [charSextet_sextetChar _ h1, charSextet_sextetChar _ h2,
      charSextet_sextetChar _ h3]
    have e1 : b1 / 4 * 4 + ((b1 % 4) * 16 + b2 / 16) / 16 = b1 := by omega
    have e2 : ((b1 % 4) * 16 + b2 / 16) % 16 * 16 + (b2 % 16) * 4 / 4 = b2 := by
      omega
    rw [e1, e2]
  | b1 :: b2 :: b3 :: b4 :: rest, h => by
    have hb1 : b1 < 256 := h b1 (by simp)
    have hb2 : b2 < 256 := h b2 (by simp)
    have hb3 : b3 < 256 := h b3 (by simp)
    have h1 : b1 / 4 < 64 := by omega
    have h2 : (b1 % 4) * 16 + b2 / 16 < 64 := by omega
    have h3 : (b2 % 16) * 4 + b3 / 64 < 64 := by omega
    have h4 : b3 % 64 < 64 := by omega
    have ih := b64_roundtrip (b4 :: rest) (by
      intro b hb
      exact h b (by simp at hb ⊢; tauto))
    simp only [b64EncodeList, b64DecodeList]
    rw [sextetChar_ne_pad _ h3, sextetChar_ne_pad _ h4]
    simp only [Bool.false_eq_true, if_false]
    rw [charSextet_sextetChar _ h1, charSextet_sextetChar _ h2,
      charSextet_sextetChar _ h3, charSextet_sextetChar _ h4]
    have e1 : b1 / 4 * 4 + ((b1 % 4) * 16 + b2 / 16) / 16 = b1 := by omega
    have e2 : ((b1 % 4) * 16 + b2 / 16) % 16 * 16 + ((b2 % 16) * 4 + b3 / 64) / 4
        = b2 := by omega
    have e3 : ((b2 % 16) * 4 + b3 / 64) % 4 * 64 + b3 % 64 = b3 := by omega
    rw [e1, e2, e3]
    simp only [b64EncodeList] at ih
    rw [ih]
  | [b1, b2, b3], h => by
    have hb1 : b1 < 256 := h b1 (by simp)
    have hb2 : b2 < 256 := h b2 (by simp)
    have hb3 : b3 < 256 := h b3 (by simp)
    have h1 : b1 / 4 < 64 := by omega
    have h2 : (b1 % 4) * 16 + b2 / 16 < 64 := by omega
    have h3 : (b2 % 16) * 4 + b3 / 64 < 64 := by omega
    have h4 : b3 % 64 < 64 := by omega
    simp only [b64EncodeList, b64DecodeList]
    rw [sextetChar_ne_pad _ h3, sextetChar_ne_pad _ h4]
    simp only [Bool.false_eq_true, if_false]
    rw [charSextet_sextetChar _ h1, charSextet_sextetChar _ h2,
      charSextet_sextetChar _ h3, charSextet_sextetChar _ h4]
    have e1 : b1 / 4 * 4 + ((b1 % 4) * 16 + b2 / 16) / 16 = b1 := by omega
    have e2 : ((b1 % 4) * 16 + b2 / 16) % 16 * 16 + ((b2 % 16) * 4 + b3 / 64) / 4
        = b2 := by omega
    have e3 : ((b2 % 16) * 4 + b3 / 64) % 4 * 64 + b3 % 64 = b3 := by omega
    rw [e1, e2, e3]


/-- Searching a concatenation whose first part has no match searches only
the second part. -/
theorem find?_append_right {α : Type} (p : α → Bool) :
    ∀ (l1 l2 : List α), (∀ x ∈ l1, p x = false) →
      (l1 ++ l2).find? p = l2.find? p := by
  intro l1
  induction l1 with
  | nil => intro l2 _; rfl
  | cons a t ih =>
    intro l2 h
    have ha := h a (by simp)
    rw [List.cons_append, List.find?_cons_of_neg _ (by simp [ha]),
      ih l2 (fun x hx => h x (by simp [hx]))]

/-- After erasing the record with a given identifier from a list whose
identifiers are pairwise distinct, no record with that identifier
remains. -/
theorem find?_eraseP_of_nodup {α : Type} (f : α → Nat) (id : Nat) :
    ∀ (l : List α), (l.map f).Nodup →
      (l.eraseP (fun r => f r == id)).find? (fun r => f r == id) = none := by
  intro l
  induction l with
  | nil => intro _; rfl
  | cons a t ih =>
    intro hn
    rw [List.map_cons, List.nodup_cons] at hn
    by_cases ha : f a = id
    · rw [List.eraseP_cons_of_pos (by simp [ha]), List.find?_eq_none]
      intro x hx hpx
      simp only [beq_iff_eq] at hpx
      exact hn.1 (List.mem_map.mpr ⟨x, hx, by rw [hpx, ha]⟩)
    · rw [List.eraseP_cons_of_neg (by simp [ha]),
        List.find?_cons_of_neg _ (by simp [ha])]
      exact ih hn.2

/-- C1: for every existing record and every partial update request, the
update merges only the fields explicitly supplied in the request into the
existing record; every field omitted from the request — title, name,
designation, dob, address, or the attachment — retains its previous value,
every supplied field takes the supplied value, and in particular an update
supplying only `address` changes `address` and nothing else.  This holds
in both variants of the service. -/
theorem update_merges_only_supplied_fields :
    (∀ (s : Inline.StoreState) (id : Nat) (u : Inline.UpdateReq)
        (e : Inline.Employee) (s2 : Inline.StoreState) (r : Inline.Employee),
      Inline.findEmployee s id = some e →
      Inline.updateEmployee s id u = Except.ok (s2, r) →
      r.id = e.id ∧
      (u.title = none → r.title = e.title) ∧
      (u.name = none → r.name = e.name) ∧
      (u.designation = none → r.designation = e.designation) ∧
      (u.dob = none → r.dob = e.dob) ∧
      (u.address = none → r.address = e.address) ∧
      (u.file = none → r.image = e.image ∧ r.contentType = e.contentType) ∧
      (∀ v, u.title = some v → r.title = v) ∧
      (∀ v, u.name = some v → r.name = v) ∧
      (∀ v, u.designation = some v → r.designation = v) ∧
      (∀ v, u.address = some v → r.address = v) ∧
      (∀ f, u.file = some f → r.image = f.buffer)) ∧
    (∀ (sink : External.Sink) (s : External.StoreState) (now : Nat)
        (id : Nat) (u : External.UpdateReq) (e : External.Employee)
        (sink2 : External.Sink) (s2 : External.StoreState)
        (r : External.Employee),
      External.findEmployee s id = some e →
      External.updateEmployee sink s now id u = Except.ok (sink2, s2, r) →
      r.id = e.id ∧
      (u.title = none → r.title = e.title) ∧
      (u.name = none → r.name = e.name) ∧
      (u.designation = none → r.designation = e.designation) ∧
      (u.dob = none → r.dob = e.dob) ∧
      (u.address = none → r.address = e.address) ∧
      (u.file = none → r.image = e.image) ∧
      (∀ v, u.title = some v → r.title = v) ∧
      (∀ v, u.name = some v → r.name = v) ∧
      (∀ v, u.designation = some v → r.designation = v) ∧
      (∀ v, u.address = some v → r.address = v)) := by
  constructor
  · intro s id u e s2 r hf hu
    unfold Inline.updateEmployee at hu
    cases hc : Inline.castDob ("Error updating Employee") u.dob with
    | error err => rw [hc] at hu; exact absurd hu (by simp)
    | ok d? =>
      rw [hc, hf] at hu
      simp only [Except.ok.injEq, Prod.mk.injEq] at hu
      have hr : r = Inline.applyUpdate u d? e := hu.2.symm
      subst hr
      refine ⟨rfl, ?_, ?_, ?_, ?_, ?_, ?_, ?_, ?_, ?_, ?_, ?_⟩
      · intro h; simp [Inline.applyUpdate, h]
      · intro h; simp [Inline.applyUpdate, h]
      · intro h; simp [Inline.applyUpdate, h]
      · intro h
        rw [h] at hc
        simp only [Inline.castDob, Except.ok.injEq] at hc
        simp [Inline.applyUpdate, hc.symm]
      · intro h; simp [Inline.applyUpdate, h]
      · intro h; simp [Inline.applyUpdate, h]
      · intro v h; simp [Inline.applyUpdate, h]
      · intro v h; simp [Inline.applyUpdate, h]
      · intro v h; simp [Inline.applyUpdate, h]
      · intro v h; simp [Inline.applyUpdate, h]
      · intro f h; simp [Inline.applyUpdate, h]
  · intro sink s now id u e sink2 s2 r hf hu
    unfold External.updateEmployee at hu
    cases hup : External.uploadSingle sink now u.file with
    | error err => rw [hup] at hu; exact absurd hu (by simp)
    | ok pr =>
      obtain ⟨sinkB, fname?⟩ := pr
      rw [hup] at hu
      cases hc : Inline.castDob ("Error updating employee") u.dob with
      | error err => rw [hc] at hu; exact absurd hu (by simp)
      | ok d? =>
        rw [hc, hf] at hu
        simp only [Except.ok.injEq, Prod.mk.injEq] at hu
        have hr : r = External.applyUpdate u fname? d? e := hu.2.2.symm
        subst hr
        refine ⟨rfl, ?_, ?_, ?_, ?_, ?_, ?_, ?_, ?_, ?_, ?_⟩
        · intro h; simp [External.applyUpdate, h]
        · intro h; simp [External.applyUpdate, h]
        · intro h; simp [External.applyUpdate, h]
        · intro h
          rw [h] at hc
          simp only [Inline.castDob, Except.ok.injEq] at hc
          simp [External.applyUpdate, hc.symm]
        · intro h; simp [External.applyUpdate, h]
        · intro h
          rw [h] at hup
          simp only [External.uploadSingle, Except.ok.injEq, Prod.mk.injEq] at hup
          simp [External.applyUpdate, hup.2.symm]
        · intro v h; simp [External.applyUpdate, h]
        · intro v h; simp [External.applyUpdate, h]
        · intro v h; simp [External.applyUpdate, h]
        · intro v h; simp [External.applyUpdate, h]

/-- Witness: the merge theorem applied to a one-record store and an
address-only update, which changes the address and nothing else. -/
theorem update_merges_only_supplied_fields_witness :
    Inline.findEmployee demoInlineStore 0 = some demoInlineEmp ∧
    Inline.updateEmployee demoInlineStore 0 demoAddrOnlyInline =
      Except.ok (⟨[demoInlineUpdated], 1⟩, demoInlineUpdated) ∧
    demoInlineUpdated.title = demoInlineEmp.title ∧
    demoInlineUpdated.name = demoInlineEmp.name ∧
    demoInlineUpdated.designation = demoInlineEmp.designation ∧
    demoInlineUpdated.dob = demoInlineEmp.dob ∧
    demoInlineUpdated.image = demoInlineEmp.image ∧
    demoInlineUpdated.contentType = demoInlineEmp.contentType ∧
    demoInlineUpdated.address = "2 Side St" := by
  have h := (update_merges_only_supplied_fields).1 demoInlineStore 0
    demoAddrOnlyInline demoInlineEmp ⟨[demoInlineUpdated], 1⟩ demoInlineUpdated
    rfl rfl
  obtain ⟨_, ht, hn, hdg, hdob, _, hfile, _, _, _, haddr2, _⟩ := h
  exact ⟨rfl, rfl, ht rfl, hn rfl, hdg rfl, hdob rfl,
    (hfile rfl).1, (hfile rfl).2, haddr2 _ rfl⟩

/-- C7: deleting an existing record succeeds and removes it; a subsequent
read of the same identifier fails with a not-found error and a second
delete of the same identifier also fails with a not-found error, in both
variants of the service. -/
theorem delete_then_read_and_redelete_fail :
    (∀ (s : Inline.StoreState) (id : Nat) (e : Inline.Employee),
      (s.recs.map (fun r => r.id)).Nodup →
      Inline.findEmployee s id = some e →
      ∃ s2, Inline.deleteEmployee s id = Except.ok s2 ∧
        Inline.getEmployee s2 id =
          Except.error (ApiErr.notFound ("Employee not found")) ∧
        Inline.deleteEmployee s2 id =
          Except.error (ApiErr.notFound ("Employee not found"))) ∧
    (∀ (s : External.StoreState) (id : Nat) (e : External.Employee),
      (s.recs.map (fun r => r.id)).Nodup →
      External.findEmployee s id = some e →
      ∃ s2, External.deleteEmployee s id = Except.ok s2 ∧
        External.getEmployee s2 id =
          Except.error (ApiErr.notFound ("Employee not found")) ∧
        External.deleteEmployee s2 id =
          Except.error (ApiErr.notFound ("Employee not found"))) := by
  constructor
  · intro s id e hn hf
    have hnone : Inline.findEmployee
        ⟨s.recs.eraseP (fun r => r.id == id), s.nextId⟩ id = none := by
      unfold Inline.findEmployee
      exact find?_eraseP_of_nodup (fun r => r.id) id s.recs hn
    refine ⟨⟨s.recs.eraseP (fun r => r.id == id), s.nextId⟩, ?_, ?_, ?_⟩
    · unfold Inline.deleteEmployee
      rw [hf]
    · unfold Inline.getEmployee
      rw [hnone]
    · unfold Inline.deleteEmployee
      rw [hnone]
  · intro s id e hn hf
    have hnone : External.findEmployee
        ⟨s.recs.eraseP (fun r => r.id == id), s.nextId⟩ id = none := by
      unfold External.findEmployee
      exact find?_eraseP_of_nodup (fun r => r.id) id s.recs hn
    refine ⟨⟨s.recs.eraseP (fun r => r.id == id), s.nextId⟩, ?_, ?_, ?_⟩
    · unfold External.deleteEmployee
      rw [hf]
    · unfold External.getEmployee
      rw [hnone]
    · unfold External.deleteEmployee
      rw [hnone]

/-- Witness: delete, re-read and re-delete on concrete one-record stores
of both variants. -/
theorem delete_then_read_and_redelete_fail_witness :
    ((demoInlineStore.recs.map (fun r => r.id)).Nodup ∧
      Inline.findEmployee demoInlineStore 0 = some demoInlineEmp ∧
      ∃ s2, Inline.deleteEmployee demoInlineStore 0 = Except.ok s2 ∧
        Inline.getEmployee s2 0 =
          Except.error (ApiErr.notFound ("Employee not found")) ∧
        Inline.deleteEmployee s2 0 =
          Except.error (ApiErr.notFound ("Employee not found"))) ∧
    ((demoExtStore.recs.map (fun r => r.id)).Nodup ∧
      External.findEmployee demoExtStore 0 = some demoExtEmp ∧
      ∃ s2, External.deleteEmployee demoExtStore 0 = Except.ok s2 ∧
        External.getEmployee s2 0 =
          Except.error (ApiErr.notFound ("Employee not found")) ∧
        External.deleteEmployee s2 0 =
          Except.error (ApiErr.notFound ("Employee not found"))) := by
  exact ⟨⟨by decide, by decide,
      delete_then_read_and_redelete_fail.1 demoInlineStore 0 demoInlineEmp
        (by decide) (by decide)⟩,
    ⟨by decide, by decide,
      delete_then_read_and_redelete_fail.2 demoExtStore 0 demoExtEmp
        (by decide) (by decide)⟩⟩

/-- C2: a create request whose dob field does not denote a valid calendar
date fails with a validation error and no record is persisted (an error
result of the create embedding carries no new store state), in both
variants; in the external variant this holds whenever the request reaches
the save step, that is the request carries no file or an image file. -/
theorem create_invalid_dob_rejected :
    (∀ (s : Inline.StoreState) (req : Inline.CreateReq) (ds : String),
      req.dob = some ds → parseDob ds = none →
      ∃ msg, Inline.createEmployee s req =
        Except.error (ApiErr.validation msg)) ∧
    (∀ (sink : External.Sink) (s : External.StoreState) (now : Nat)
        (req : External.CreateReq) (ds : String),
      req.dob = some ds → parseDob ds = none →
      (req.file = none ∨ ∃ f, req.file = some f ∧ mimeIsImage f.mimetype = true) →
      ∃ msg, External.createEmployee sink s now req =
        Except.error (ApiErr.validation msg)) := by
  constructor
  · intro s req ds hds hparse
    unfold Inline.createEmployee
    split
    · exact ⟨_, rfl⟩
    · split
      · exact ⟨_, rfl⟩
      · rw [hds]
        simp only [Option.getD_some]
        rw [hparse]
        exact ⟨_, rfl⟩
  · intro sink s now req ds hds hparse hup
    unfold External.createEmployee
    rcases hup with hnone | ⟨f, hf, him⟩
    · rw [hnone, hds]
      simp only [External.uploadSingle]
      rw [hparse]
      exact ⟨_, rfl⟩
    · rw [hf, hds]
      simp only [External.uploadSingle, him, if_true]
      rw [hparse]
      exact ⟨_, rfl⟩

/-- Witness: creating with dob 2023-02-30 (an invalid calendar date) fails
with a validation error in both variants. -/
theorem create_invalid_dob_rejected_witness :
    parseDob ("2023-02-30") = none ∧
    (∃ msg, Inline.createEmployee emptyInlineStore
        ⟨some ("Mr"), some ("Ada"), some ("Engineer"), some ("2023-02-30"),
          some ("1 Main St"), some demoFile⟩
      = Except.error (ApiErr.validation msg)) ∧
    (∃ msg, External.createEmployee emptySink emptyExtStore 7
        ⟨some ("Mr"), some ("Ada"), some ("Engineer"), some ("2023-02-30"),
          some ("1 Main St"), some demoFile⟩
      = Except.error (ApiErr.validation msg)) := by
  refine ⟨by decide, ?_, ?_⟩
  · exact create_invalid_dob_rejected.1 emptyInlineStore _ _ rfl (by decide)
  · exact create_invalid_dob_rejected.2 emptySink emptyExtStore 7 _ _ rfl
      (by decide) (Or.inr ⟨demoFile, rfl, by decide⟩)

/-- C5: under the external variant, an upload whose declared MIME type
does not begin with the image category is rejected by the file filter with
the attachment-type error — before any bytes reach the content sink, as
the rejection result carries no sink write — and a create request with
such a file surfaces exactly that error, persisting nothing. -/
theorem upload_rejects_non_image_mime
    (sink : External.Sink) (now : Nat) (f : FileUpload)
    (h : mimeIsImage f.mimetype = false) :
    External.uploadSingle sink now (some f)
      = Except.error (ApiErr.attachmentType ("Only image files are allowed")) ∧
    (∀ (s : External.StoreState) (req : External.CreateReq),
      req.file = some f →
      External.createEmployee sink s now req
        = Except.error (ApiErr.attachmentType ("Only image files are allowed"))) := by
  have hup : External.uploadSingle sink now (some f)
      = Except.error (ApiErr.attachmentType ("Only image files are allowed")) := by
    simp [External.uploadSingle, h]
  refine ⟨hup, ?_⟩
  intro s req hf
  unfold External.createEmployee
  rw [hf, hup]

/-- Witness: a text/plain upload is rejected with the attachment-type
error by the upload filter and by the create route. -/
theorem upload_rejects_non_image_mime_witness :
    mimeIsImage demoTextFile.mimetype = false ∧
    External.uploadSingle emptySink 7 (some demoTextFile)
      = Except.error (ApiErr.attachmentType ("Only image files are allowed")) ∧
    External.createEmployee emptySink emptyExtStore 7
        ⟨some ("Mr"), some ("Ada"), some ("Engineer"), some ("1990-01-01"),
          some ("1 Main St"), some demoTextFile⟩
      = Except.error (ApiErr.attachmentType ("Only image files are allowed")) := by
  have h := upload_rejects_non_image_mime emptySink 7 demoTextFile (by decide)
  exact ⟨by decide, h.1, h.2 emptyExtStore _ rfl⟩

/-- C6 counterexample: a create request with a missing title fails, but
the inline variant's validation error carries the route's fixed message,
which does not name the offending field. -/
theorem create_error_message_generic_cex :
    Inline.createEmployee demoInlineStore demoNoTitleReq
      = Except.error (ApiErr.validation ("All fields are required.")) ∧
    containsSub (("title").data) (("All fields are required.").data) = false := by
  exact ⟨rfl, by decide⟩

/-- C6 (amended): when a required text field is missing or empty, or dob
does not parse to a valid calendar date, the inline create route fails
with a validation error — carrying one of the route's fixed,
field-agnostic messages rather than the offending field's name — and no
record is persisted. -/
theorem create_validation_fails_no_persist
    (s : Inline.StoreState) (req : Inline.CreateReq)
    (h : isBlank req.title = true ∨ isBlank req.name = true
      ∨ isBlank req.designation = true ∨ isBlank req.address = true
      ∨ (∀ ds, req.dob = some ds → parseDob ds = none)) :
    ∃ msg, Inline.createEmployee s req = Except.error (ApiErr.validation msg) := by
  unfold Inline.createEmployee
  split
  · exact ⟨_, rfl⟩
  · split
    · exact ⟨_, rfl⟩
    · rename_i hb
      simp only [Bool.or_eq_true, not_or, Bool.not_eq_true] at hb
      obtain ⟨⟨⟨⟨t1, t2⟩, t3⟩, t4⟩, t5⟩ := hb
      rcases h with h1 | h1 | h1 | h1 | h5
      · rw [h1] at t1; exact absurd t1 (by simp)
      · rw [h1] at t2; exact absurd t2 (by simp)
      · rw [h1] at t3; exact absurd t3 (by simp)
      · rw [h1] at t5; exact absurd t5 (by simp)
      · cases hd : req.dob with
        | none => rw [hd] at t4; exact absurd t4 (by simp [isBlank])
        | some ds =>
          simp only [Option.getD_some]
          rw [h5 ds hd]
          exact ⟨_, rfl⟩

/-- Witness: the amended validation theorem applied to the concrete
missing-title request. -/
theorem create_validation_fails_no_persist_witness :
    isBlank demoNoTitleReq.title = true ∧
    ∃ msg, Inline.createEmployee demoInlineStore demoNoTitleReq
      = Except.error (ApiErr.validation msg) :=
  ⟨by decide, create_validation_fails_no_persist demoInlineStore demoNoTitleReq
    (Or.inl (by decide))⟩

/-- C9: in the inline variant, the data-URI rendering of the attachment is
produced only by the fetch-by-id route; the list route returns stored
records as they are, raw image bytes included. -/
theorem list_returns_raw_records_fetch_encodes :
    (∀ (s : Inline.StoreState) (limit : JSNum) (e : Inline.Employee),
      e ∈ Inline.listEmployees s limit → e ∈ s.recs) ∧
    (∀ (s : Inline.StoreState) (id : Nat) (e : Inline.Employee),
      Inline.findEmployee s id = some e →
      Inline.getEmployee s id = Except.ok (Inline.renderEmployee e) ∧
      (Inline.renderEmployee e).image
        = ("data:") ++ e.contentType ++ (";base64,") ++ base64Encode e.image) := by
  constructor
  · intro s limit e he
    unfold Inline.listEmployees at he
    split at he
    · split at he
      · exact List.take_subset _ _ he
      · exact he
    · exact he
  · intro s id e hf
    constructor
    · unfold Inline.getEmployee
      rw [hf]
    · rfl

/-- Witness: listing a one-record store returns the stored record itself,
and fetch-by-id returns its data-URI rendering. -/
theorem list_returns_raw_records_fetch_encodes_witness :
    demoInlineEmp ∈ Inline.listEmployees demoInlineStore (JSNum.num 1) ∧
    demoInlineEmp ∈ demoInlineStore.recs ∧
    Inline.findEmployee demoInlineStore 0 = some demoInlineEmp ∧
    Inline.getEmployee demoInlineStore 0
      = Except.ok (Inline.renderEmployee demoInlineEmp) ∧
    (Inline.renderEmployee demoInlineEmp).image
      = ("data:") ++ demoInlineEmp.contentType ++ (";base64,")
          ++ base64Encode demoInlineEmp.image := by
  have h1 := list_returns_raw_records_fetch_encodes.1 demoInlineStore
    (JSNum.num 1) demoInlineEmp (by decide)
  have h2 := list_returns_raw_records_fetch_encodes.2 demoInlineStore 0
    demoInlineEmp rfl
  exact ⟨by decide, h1, rfl, h2.1, h2.2⟩

/-- C10: in the inline variant's limit-mode listing, a limit coercing to 0
or NaN returns the entire record set rather than zero records; a limit
coercing to a nonzero number caps the result at the magnitude of that
number. -/
theorem limit_zero_or_nan_returns_all :
    (∀ (s : Inline.StoreState),
      Inline.listEmployees s (JSNum.num 0) = s.recs ∧
      Inline.listEmployees s JSNum.nan = s.recs) ∧
    (∀ (s : Inline.StoreState) (n : Int), n ≠ 0 →
      Inline.listEmployees s (JSNum.num n) = s.recs.take n.natAbs ∧
      (Inline.listEmployees s (JSNum.num n)).length ≤ n.natAbs) := by
  constructor
  · intro s
    exact ⟨rfl, rfl⟩
  · intro s n hn
    have hb : (n != 0) = true := by simpa using hn
    constructor
    · show (if (n != 0) = true then s.recs.take n.natAbs else s.recs)
        = s.recs.take n.natAbs
      rw [if_pos hb]
    · show (if (n != 0) = true then s.recs.take n.natAbs else s.recs).length
        ≤ n.natAbs
      rw [if_pos hb]
      exact List.length_take_le _ _

/-- Witness: limit 0 and NaN return the whole one-record store; limit 1
caps the listing at one record. -/
theorem limit_zero_or_nan_returns_all_witness :
    Inline.listEmployees demoInlineStore (JSNum.num 0) = demoInlineStore.recs ∧
    Inline.listEmployees demoInlineStore JSNum.nan = demoInlineStore.recs ∧
    ((1 : Int) ≠ 0) ∧
    Inline.listEmployees demoInlineStore (JSNum.num 1)
      = demoInlineStore.recs.take 1 := by
  have h0 := limit_zero_or_nan_returns_all.1 demoInlineStore
  have h1 := limit_zero_or_nan_returns_all.2 demoInlineStore 1 (by decide)
  exact ⟨h0.1, h0.2, by decide, h1.1⟩

/-- C3: for every stored record set and every page ≥ 1 and limit ≥ 1, the
page-mode listing returns exactly the slice [(page−1)·limit, page·limit)
of the full ordered record set — element i of the result is element
(page−1)·limit + i of the store — together with the full count, and
totalPages is the least number of limit-sized pages covering all records,
i.e. the ceiling of totalRecords / limit; a page beyond totalPages yields
an empty slice (the listing is total, never an error). -/
theorem listPaged_returns_requested_slice (s : External.StoreState)
    (page limit : Nat) (hp : 1 ≤ page) (hl : 1 ≤ limit) :
    (External.listPaged s page limit).totalEmployees = s.recs.length ∧
    (External.listPaged s page limit).employees.length
      = min limit (s.recs.length - (page - 1) * limit) ∧
    (∀ i, i < limit →
      (External.listPaged s page limit).employees[i]?
        = s.recs[(page - 1) * limit + i]?) ∧
    s.recs.length ≤ (External.listPaged s page limit).totalPages * limit ∧
    (∀ k, s.recs.length ≤ k * limit →
      (External.listPaged s page limit).totalPages ≤ k) ∧
    ((External.listPaged s page limit).totalPages < page →
      (External.listPaged s page limit).employees = []) := by
  have hcover : s.recs.length
      ≤ (s.recs.length + limit - 1) / limit * limit := by
    have h1 := Nat.div_add_mod (s.recs.length + limit - 1) limit
    have h2 := Nat.mod_lt (s.recs.length + limit - 1)
      (show 0 < limit by omega)
    rw [Nat.mul_comm]
    generalize hq : limit * ((s.recs.length + limit - 1) / limit) = Q at h1 ⊢
    omega
  refine ⟨rfl, ?_, ?_, hcover, ?_, ?_⟩
  · simp [External.listPaged, List.length_take, List.length_drop]
  · intro i hi
    show ((s.recs.drop ((page - 1) * limit)).take limit)[i]?
      = s.recs[(page - 1) * limit + i]?
    rw [List.getElem?_take_of_lt hi, List.getElem?_drop]
  · intro k hk
    show (s.recs.length + limit - 1) / limit ≤ k
    have hlt : (s.recs.length + limit - 1) / limit < k + 1 := by
      rw [Nat.div_lt_iff_lt_mul (show 0 < limit by omega)]
      have hkl : (k + 1) * limit = k * limit + limit := by ring
      rw [hkl]
      generalize k * limit = K at hk ⊢
      omega
    omega
  · intro hbeyond
    show (s.recs.drop ((page - 1) * limit)).take limit = []
    have hple : (s.recs.length + limit - 1) / limit ≤ page - 1 := by
      have : (External.listPaged s page limit).totalPages
          = (s.recs.length + limit - 1) / limit := rfl
      omega
    have hlen : s.recs.length ≤ (page - 1) * limit :=
      le_trans hcover (Nat.mul_le_mul_right limit hple)
    rw [List.drop_eq_nil_of_le hlen, List.take_nil]

/-- Witness: page 2 with limit 2 over a five-record store returns the
middle slice, the full count and the ceiling page count, and page 9 is
empty without error. -/
theorem listPaged_returns_requested_slice_witness :
    (1 ≤ 2 ∧ 1 ≤ 2 ∧
      (External.listPaged demoExtStore5 2 2).totalEmployees
        = demoExtStore5.recs.length ∧
      (External.listPaged demoExtStore5 2 2).employees.length
        = min 2 (demoExtStore5.recs.length - (2 - 1) * 2) ∧
      demoExtStore5.recs.length
        ≤ (External.listPaged demoExtStore5 2 2).totalPages * 2) ∧
    (1 ≤ 9 ∧ (External.listPaged demoExtStore5 9 2).totalPages < 9 ∧
      (External.listPaged demoExtStore5 9 2).employees = []) := by
  have h := listPaged_returns_requested_slice demoExtStore5 2 2
    (by decide) (by decide)
  have h9 := listPaged_returns_requested_slice demoExtStore5 9 2
    (by decide) (by decide)
  exact ⟨⟨by decide, by decide, h.1, h.2.1, h.2.2.2.1⟩,
    ⟨by decide, by decide, h9.2.2.2.2.2 (by decide)⟩⟩

/-- Joining the limit-sized chunks of a list, as many as the ceiling of
its length over the chunk size, recovers the list itself. -/
theorem join_chunks_eq {α : Type} (L : Nat) (hL : 0 < L) :
    ∀ (n : Nat) (l : List α), l.length ≤ n →
      ((List.range ((l.length + L - 1) / L)).map
        (fun i => (l.drop (i * L)).take L)).flatten = l := by
  intro n
  induction n with
  | zero =>
    intro l hl
    have h0 : l = [] := List.length_eq_zero.mp (Nat.le_zero.mp hl)
    subst h0
    have hz : (0 + L - 1) / L = 0 := Nat.div_eq_of_lt (by omega)
    simp only [List.length_nil]
    rw [hz]
    rfl
  | succ n ih =>
    intro l hl
    by_cases h0 : l = []
    · subst h0
      have hz : (0 + L - 1) / L = 0 := Nat.div_eq_of_lt (by omega)
      simp only [List.length_nil]
      rw [hz]
      rfl
    · have hpos : 0 < l.length := List.length_pos.mpr h0
      have hdl : (l.drop L).length = l.length - L := List.length_drop L l
      have hstep : (l.length + L - 1) / L
          = ((l.drop L).length + L - 1) / L + 1 := by
        rw [hdl]
        by_cases hc : l.length ≤ L
        · have h1 : l.length - L = 0 := by omega
          rw [h1]
          have h2 : (0 + L - 1) / L = 0 := Nat.div_eq_of_lt (by omega)
          rw [h2]
          have hlow : 1 ≤ (l.length + L - 1) / L := by
            rw [Nat.one_le_div_iff (by omega)]
            omega
          have hhigh : (l.length + L - 1) / L < 2 := by
            rw [Nat.div_lt_iff_lt_mul (by omega)]
            omega
          omega
        · have h1 : l.length - L + L - 1 + L = l.length + L - 1 := by omega
          rw [← h1, Nat.add_div_right _ (by omega)]
      rw [hstep, List.range_succ_eq_map]
      simp only [List.map_cons, List.flatten_cons, Nat.zero_mul,
        List.drop_zero, List.map_map]
      have hfun : ((fun i => (l.drop (i * L)).take L) ∘ Nat.succ)
          = (fun i => ((l.drop L).drop (i * L)).take L) := by
        funext i
        simp only [Function.comp_apply]
        rw [List.drop_drop, Nat.succ_mul, Nat.add_comm (i * L) L]
      rw [hfun, ih (l.drop L) (by omega)]
      exact List.take_append_drop L l

/-- C8: in page mode with limit L > 0, totalPages is the ceiling of the
record count over L (characterized by N ≤ totalPages·L < N + L), and
concatenating the record slices of pages 1 through totalPages in order
yields exactly the full ordered record set — no duplicates, no
omissions. -/
theorem listPaged_pages_cover_all_records (s : External.StoreState)
    (L : Nat) (hL : 0 < L) :
    s.recs.length ≤ (External.listPaged s 1 L).totalPages * L ∧
    (External.listPaged s 1 L).totalPages * L < s.recs.length + L ∧
    ((List.range (External.listPaged s 1 L).totalPages).map
      (fun i => (External.listPaged s (i + 1) L).employees)).flatten
      = s.recs := by
  have h1 := Nat.div_add_mod (s.recs.length + L - 1) L
  have h2 := Nat.mod_lt (s.recs.length + L - 1) (show 0 < L by omega)
  have htp : (External.listPaged s 1 L).totalPages
      = (s.recs.length + L - 1) / L := rfl
  refine ⟨?_, ?_, ?_⟩
  · rw [htp, Nat.mul_comm]
    generalize hq : L * ((s.recs.length + L - 1) / L) = Q at h1 ⊢
    omega
  · rw [htp, Nat.mul_comm]
    generalize hq : L * ((s.recs.length + L - 1) / L) = Q at h1 ⊢
    omega
  · have hfun : (fun i => (External.listPaged s (i + 1) L).employees)
        = (fun i => (s.recs.drop (i * L)).take L) := by
      funext i
      show (s.recs.drop ((i + 1 - 1) * L)).take L
        = (s.recs.drop (i * L)).take L
      rw [Nat.add_sub_cancel]
    rw [htp, hfun]
    exact join_chunks_eq L hL s.recs.length s.recs le_rfl

/-- Witness: the five-record store with limit 2 has three pages whose
concatenation is exactly the stored record list. -/
theorem listPaged_pages_cover_all_records_witness :
    (0 < 2) ∧
    demoExtStore5.recs.length
      ≤ (External.listPaged demoExtStore5 1 2).totalPages * 2 ∧
    (External.listPaged demoExtStore5 1 2).totalPages * 2
      < demoExtStore5.recs.length + 2 ∧
    ((List.range (External.listPaged demoExtStore5 1 2).totalPages).map
      (fun i => (External.listPaged demoExtStore5 (i + 1) 2).employees)).flatten
      = demoExtStore5.recs := by
  have h := listPaged_pages_cover_all_records demoExtStore5 2 (by decide)
  exact ⟨by decide, h.1, h.2.1, h.2.2⟩

/-- Stripping an expected leading segment from its own extension returns
the remainder. -/
theorem dropLead_append : ∀ (p rest : List Char), dropLead p (p ++ rest) = some rest := by
  intro p
  induction p with
  | nil => intro rest; rfl
  | cons c cs ih =>
    intro rest
    simp [dropLead, ih]

/-- C4: for every valid field set — required text fields non-empty, dob a
valid date, attachment satisfying the active variant's requirement —
create followed by read of the assigned id returns a record whose every
field equals what was submitted; the inline variant's read renders the
attachment as a data URI embedding the submitted content type and a
base64 encoding whose decoding recovers the submitted bytes, and the
external variant's read returns a locator resolvable through the sink to
the submitted bytes. -/
theorem create_then_read_roundtrip :
    (∀ (s : Inline.StoreState) (t nm dg ds ad : String)
        (f : FileUpload) (d : SimpleDate),
      (∀ r ∈ s.recs, r.id < s.nextId) →
      t ≠ "" → nm ≠ "" → dg ≠ "" → ds ≠ "" → ad ≠ "" →
      parseDob ds = some d → f.mimetype ≠ "" →
      ∃ s2 e,
        Inline.createEmployee s
            ⟨some t, some nm, some dg, some ds, some ad, some f⟩
          = Except.ok (s2, e) ∧
        Inline.getEmployee s2 e.id = Except.ok (Inline.renderEmployee e) ∧
        e.title = t ∧ e.name = nm ∧ e.designation = dg ∧ e.dob = d ∧
        e.address = ad ∧ e.image = f.buffer ∧ e.contentType = f.mimetype ∧
        (Inline.renderEmployee e).image
          = ("data:") ++ f.mimetype ++ (";base64,") ++ base64Encode f.buffer ∧
        ((∀ b ∈ f.buffer, b < 256) →
          b64DecodeList (b64EncodeList f.buffer) = f.buffer)) ∧
    (∀ (sink : External.Sink) (s : External.StoreState) (now : Nat)
        (t nm dg ds ad : String) (f : FileUpload) (d : SimpleDate),
      (∀ r ∈ s.recs, r.id < s.nextId) →
      t ≠ "" → nm ≠ "" → dg ≠ "" → ad ≠ "" →
      parseDob ds = some d →
      mimeIsImage f.mimetype = true →
      External.lookupFile sink (External.mkFileName now f.originalname) = none →
      ∃ sink2 s2 e,
        External.createEmployee sink s now
            ⟨some t, some nm, some dg, some ds, some ad, some f⟩
          = Except.ok (sink2, s2, e) ∧
        External.getEmployee s2 e.id = Except.ok e ∧
        e.title = t ∧ e.name = nm ∧ e.designation = dg ∧ e.dob = d ∧
        e.address = ad ∧
        ∃ loc, e.image = some loc ∧
          External.resolveLocator sink2 loc = some f.buffer) := by
  constructor
  · intro s t nm dg ds ad f d hwf ht hnm hdg hds had hparse hmt
    have hcond : (isBlank (some t) || isBlank (some nm) || isBlank (some dg)
        || isBlank (some ds) || isBlank (some ad)) = false := by
      simp [isBlank, ht, hnm, hdg, hds, had]
    have hmtf : (f.mimetype == "") = false := beq_eq_false_iff_ne.mpr hmt
    have hstep : Inline.createEmployee s
        ⟨some t, some nm, some dg, some ds, some ad, some f⟩
        = Except.ok
          (⟨s.recs ++ [⟨s.nextId, t, f.buffer, nm, dg, d, ad, f.mimetype⟩],
              s.nextId + 1⟩,
            ⟨s.nextId, t, f.buffer, nm, dg, d, ad, f.mimetype⟩) := by
      simp [Inline.createEmployee, hcond, hparse, hmtf]
    refine ⟨_, _, hstep, ?_, rfl, rfl, rfl, rfl, rfl, rfl, rfl, rfl, ?_⟩
    · have hfind : (s.recs
          ++ [(⟨s.nextId, t, f.buffer, nm, dg, d, ad, f.mimetype⟩ : Inline.Employee)]).find?
            (fun r => r.id == s.nextId)
          = some ⟨s.nextId, t, f.buffer, nm, dg, d, ad, f.mimetype⟩ := by
        rw [find?_append_right]
        · simp [List.find?]
        · intro x hx
          exact beq_eq_false_iff_ne.mpr (Nat.ne_of_lt (hwf x hx))
      show Inline.getEmployee
          ⟨s.recs ++ [⟨s.nextId, t, f.buffer, nm, dg, d, ad, f.mimetype⟩],
            s.nextId + 1⟩ s.nextId
        = Except.ok (Inline.renderEmployee
            ⟨s.nextId, t, f.buffer, nm, dg, d, ad, f.mimetype⟩)
      unfold Inline.getEmployee Inline.findEmployee
      rw [hfind]
    · intro hb
      exact b64_roundtrip f.buffer hb
  · intro sink s now t nm dg ds ad f d hwf ht hnm hdg had hparse him hfresh
    have hcond : (External.requiredStrOk (some t)
        && External.requiredStrOk (some nm)
        && External.requiredStrOk (some dg)
        && External.requiredStrOk (some ad)) = true := by
      simp [External.requiredStrOk, ht, hnm, hdg, had]
    have hup : External.uploadSingle sink now (some f)
        = Except.ok
          (⟨sink.files ++ [(External.mkFileName now f.originalname, f.buffer)]⟩,
            some (External.mkFileName now f.originalname)) := by
      simp [External.uploadSingle, him]
    have hstep : External.createEmployee sink s now
        ⟨some t, some nm, some dg, some ds, some ad, some f⟩
        = Except.ok
          (⟨sink.files ++ [(External.mkFileName now f.originalname, f.buffer)]⟩,
            ⟨s.recs ++ [⟨s.nextId, t,
                some (("/uploads/") ++ External.mkFileName now f.originalname),
                nm, dg, d, ad⟩], s.nextId + 1⟩,
            ⟨s.nextId, t,
              some (("/uploads/") ++ External.mkFileName now f.originalname),
              nm, dg, d, ad⟩) := by
      simp [External.createEmployee, hup, hparse, hcond]
    refine ⟨_, _, _, hstep, ?_, rfl, rfl, rfl, rfl, rfl,
      ("/uploads/") ++ External.mkFileName now f.originalname, rfl, ?_⟩
    · have hfind : (s.recs
          ++ [(⟨s.nextId, t,
              some (("/uploads/") ++ External.mkFileName now f.originalname),
              nm, dg, d, ad⟩ : External.Employee)]).find?
            (fun r => r.id == s.nextId)
          = some ⟨s.nextId, t,
              some (("/uploads/") ++ External.mkFileName now f.originalname),
              nm, dg, d, ad⟩ := by
        rw [find?_append_right]
        · simp [List.find?]
        · intro x hx
          exact beq_eq_false_iff_ne.mpr (Nat.ne_of_lt (hwf x hx))
      show External.getEmployee
          ⟨s.recs ++ [⟨s.nextId, t,
              some (("/uploads/") ++ External.mkFileName now f.originalname),
              nm, dg, d, ad⟩], s.nextId + 1⟩ s.nextId
        = Except.ok ⟨s.nextId, t,
            some (("/uploads/") ++ External.mkFileName now f.originalname),
            nm, dg, d, ad⟩
      unfold External.getEmployee External.findEmployee
      rw [hfind]
    · have hfind0 : sink.files.find?
          (fun q => q.1 == External.mkFileName now f.originalname) = none := by
        unfold External.lookupFile at hfresh
        cases hx : sink.files.find?
            (fun q => q.1 == External.mkFileName now f.originalname) with
        | none => rfl
        | some v => rw [hx] at hfresh; simp at hfresh
      have hfind2 : (sink.files
          ++ [(External.mkFileName now f.originalname, f.buffer)]).find?
            (fun q => q.1 == External.mkFileName now f.originalname)
          = some (External.mkFileName now f.originalname, f.buffer) := by
        rw [find?_append_right]
        · simp [List.find?]
        · intro x hx
          simpa using List.find?_eq_none.mp hfind0 x hx
      unfold External.resolveLocator
      rw [String.data_append, dropLead_append]
      show ((sink.files
          ++ [(External.mkFileName now f.originalname, f.buffer)]).find?
            (fun q => q.1 == External.mkFileName now f.originalname)).map
          (fun q => q.2)
        = some f.buffer
      rw [hfind2]
      rfl

/-- Witness: creating the concrete valid record and reading it back, in
both variants, returns the submitted fields, with a decodable data URI
inline and a resolvable locator externally. -/
theorem create_then_read_roundtrip_witness :
    (parseDob ("1990-01-01") = some demoDate ∧
      ∃ s2 e, Inline.createEmployee emptyInlineStore
            ⟨some ("Mr"), some ("Ada"), some ("Engineer"),
              some ("1990-01-01"), some ("1 Main St"), some demoFile⟩
          = Except.ok (s2, e) ∧
        Inline.getEmployee s2 e.id = Except.ok (Inline.renderEmployee e) ∧
        e.title = "Mr" ∧ e.dob = demoDate ∧ e.image = demoFile.buffer ∧
        b64DecodeList (b64EncodeList demoFile.buffer) = demoFile.buffer) ∧
    (mimeIsImage demoFile.mimetype = true ∧
      ∃ sink2 s2 e, External.createEmployee emptySink emptyExtStore 7
            ⟨some ("Mr"), some ("Ada"), some ("Engineer"),
              some ("1990-01-01"), some ("1 Main St"), some demoFile⟩
          = Except.ok (sink2, s2, e) ∧
        External.getEmployee s2 e.id = Except.ok e ∧
        e.title = "Mr" ∧ e.dob = demoDate ∧
        ∃ loc, e.image = some loc ∧
          External.resolveLocator sink2 loc = some demoFile.buffer) := by
  have h1 := create_then_read_roundtrip.1 emptyInlineStore ("Mr") ("Ada")
    ("Engineer") ("1990-01-01") ("1 Main St") demoFile demoDate
    (by intro r hr; exact absurd hr (by simp [emptyInlineStore]))
    (by decide) (by decide) (by decide) (by decide) (by decide)
    (by decide) (by decide)
  have h2 := create_then_read_roundtrip.2 emptySink emptyExtStore 7 ("Mr")
    ("Ada") ("Engineer") ("1990-01-01") ("1 Main St") demoFile demoDate
    (by intro r hr; exact absurd hr (by simp [emptyExtStore]))
    (by decide) (by decide) (by decide) (by decide) (by decide)
    (by decide) (by decide)
  obtain ⟨s2, e, hc, hg, hti, hna, hde, hdo, had, him, hct, hren, hrt⟩ := h1
  obtain ⟨sink2, s2b, eb, hcb, hgb, htib, hnab, hdeb, hdob, hadb, hloc⟩ := h2
  exact ⟨⟨by decide, s2, e, hc, hg, hti, hdo, him, hrt (by decide)⟩,
    ⟨by decide, sink2, s2b, eb, hcb, hgb, htib, hdob, hloc⟩⟩
